import Mathlib

/-!
Verification of the FinSight backend (`backend/app.py`), a Telegram
finance-tracking webhook.  The development shallowly embeds the pure
decision logic of the file: the amount parser, the currency formatter,
the per-sender record store accesses, and the command handlers reachable
from the webhook, and proves the frozen claims about them.

Modelling conventions:
* Python floats are modelled as `ℚ` for finite values; `Fl` adds the
  non-finite values `nan`, `inf`, `-inf` needed by `format_currency`.
* Timestamps (`created_at`, `utcnow`, the first instant of the current
  month) are abstracted to `ℕ`; the webhook receives `now` and
  `monthStart` as parameters, since their computation lives in the
  `datetime` library, not in the repository.
* Regular-expression digits (`\d`) and `str.lower`/`str.strip` are
  modelled on ASCII (`Char.isDigit`, `Char.toLower`,
  `Char.isWhitespace`); every string the claims exercise is ASCII apart
  from the rupee glyph, which is handled explicitly.
* The remote record store is external to the repository.  Following the
  spec (sections 4.3 and 6), `select` returns the stored rows that match
  the filter, in store (insertion) order, truncated to the requested
  `limit`; `insert` appends.  Each select helper below mirrors one call
  site of `supabase_select` with its exact filter string and limit.
-/

namespace FinSight

/-! ## Python string primitives used by `app.py` -/

/-- Python `str.strip()` (no argument): drop whitespace from both ends. -/
def pyStrip (cs : List Char) : List Char :=
  ((cs.dropWhile Char.isWhitespace).reverse.dropWhile Char.isWhitespace).reverse

/-- Python `str.lower()`: lower-case each character. -/
def pyLower (s : String) : String :=
  String.mk (s.toList.map Char.toLower)

/-- Helper for `pySplit`: accumulates the current word (reversed). -/
def splitWsAux : List Char → List Char → List String
  | [], acc => if acc.isEmpty then [] else [String.mk acc.reverse]
  | c :: cs, acc =>
    if c.isWhitespace then
      if acc.isEmpty then splitWsAux cs []
      else String.mk acc.reverse :: splitWsAux cs []
    else splitWsAux cs (c :: acc)

/-- Python `str.strip().split()` (line 210): split on whitespace runs,
discarding empty tokens. -/
def pySplit (s : String) : List String :=
  splitWsAux (pyStrip s.toList) []

/-! ## Amount parser (`parse_amount`, lines 124-137) -/

/-- Value of a digit string, most significant digit first. -/
def digitsToNat (cs : List Char) : ℕ :=
  cs.foldl (fun n c => 10 * n + (c.toNat - 48)) 0

/-- Decimal value of `float("<ds>.<fs>")` (with `fs = []` for no dot). -/
def decVal (ds fs : List Char) : ℚ :=
  (digitsToNat ds : ℚ) + (digitsToNat fs : ℚ) / (10 : ℚ) ^ fs.length

/-- Embedding of `re.match(r"^(\d+(\.\d+)?)$", s)` (line 130): the whole
string must be digits, optionally followed by a dot and digits; on
success returns the integer and fractional digit lists. -/
def fullMatch (cs : List Char) : Option (List Char × List Char) :=
  let ds := cs.takeWhile Char.isDigit
  let rest := cs.dropWhile Char.isDigit
  if ds.isEmpty then none
  else
    match rest with
    | [] => some (ds, [])
    | '.' :: r2 =>
      let fs := r2.takeWhile Char.isDigit
      if fs.isEmpty then none
      else if (r2.dropWhile Char.isDigit).isEmpty then some (ds, fs)
      else none
    | _ :: _ => none

/-- At a position starting with a digit, take the match of
`(\d+(\.\d+)?)`: the maximal digit run, plus a dot and a second digit
run when a dot immediately followed by a digit comes next. -/
def grabNum (cs : List Char) : List Char × List Char :=
  let ds := cs.takeWhile Char.isDigit
  match cs.dropWhile Char.isDigit with
  | '.' :: r2 =>
    let fs := r2.takeWhile Char.isDigit
    if fs.isEmpty then (ds, []) else (ds, fs)
  | _ => (ds, [])

/-- Embedding of `re.search(r"(\d+(\.\d+)?)", s)` (line 134): find the
leftmost digit and take the maximal match starting there. -/
def searchNum : List Char → Option (List Char × List Char)
  | [] => none
  | c :: cs => if c.isDigit then some (grabNum (c :: cs)) else searchNum cs

/-- Normalisation performed at lines 128-129:
`raw.strip().replace("₹", "").replace(",", "")`.  Python `replace` with
a one-character pattern and empty replacement deletes every occurrence
of that character. -/
def normalizeAmount (raw : String) : List Char :=
  ((pyStrip raw.toList).filter (fun c => c ≠ '₹')).filter (fun c => c ≠ ',')

/-- Embedding of `parse_amount` (lines 124-137): `None` for the empty
string; otherwise normalise, try the exact `digits[.digits]` match, then
the first embedded number, else `None`. -/
def parse_amount (raw : String) : Option ℚ :=
  if raw = "" then none
  else
    match fullMatch (normalizeAmount raw) with
    | some (ds, fs) => some (decVal ds fs)
    | none =>
      match searchNum (normalizeAmount raw) with
      | some (ds, fs) => some (decVal ds fs)
      | none => none

/-- Spec-side shape predicate for claim C1: the string is exactly digits
optionally followed by a dot and digits. -/
def NumShape (cs : List Char) : Prop :=
  (cs ≠ [] ∧ ∀ c ∈ cs, c.isDigit) ∨
  ∃ ds fs, cs = ds ++ '.' :: fs ∧ ds ≠ [] ∧ fs ≠ [] ∧
    (∀ c ∈ ds, c.isDigit) ∧ (∀ c ∈ fs, c.isDigit)

/-- Evaluation helper: reduce a `decVal` application to rational
arithmetic once the two digit strings have been evaluated. -/
theorem decVal_eq {ds fs : List Char} (a b : ℕ) (ha : digitsToNat ds = a)
    (hb : digitsToNat fs = b) : decVal ds fs = (a : ℚ) + (b : ℚ) / (10 : ℚ) ^ fs.length := by
  rw [decVal, ha, hb]

/-! ## Currency formatter (`format_currency`, lines 139-143) -/

/-- Python float values: a finite value (modelled exactly as a
rational) or one of the non-finite values `nan`, `inf`, `-inf`. -/
inductive Fl where
  | finite (q : ℚ)
  | nan
  | inf
  | ninf
deriving DecidableEq

/-- Decimal digits of a natural number, least significant first;
`0` gives the empty list.  The first argument is structural fuel, which
suffices whenever `n ≤ fuel`. -/
def natDigitsAux : ℕ → ℕ → List Char
  | 0, _ => []
  | _ + 1, 0 => []
  | fuel + 1, n + 1 => Nat.digitChar ((n + 1) % 10) :: natDigitsAux fuel ((n + 1) / 10)

/-- Decimal digits of a natural number, least significant first, with
`['0']` for zero (as Python prints it). -/
def natDigitsRev (n : ℕ) : List Char :=
  if n = 0 then ['0'] else natDigitsAux n n

/-- Thousands grouping on a least-significant-first digit list: insert a
comma after every third digit, as Python's `format(n, ",")` does. -/
def group3 : List Char → List Char
  | a :: b :: c :: d :: rest => a :: b :: c :: ',' :: group3 (d :: rest)
  | l => l

/-- Python `f"{n:,}"` for an integer `n`: optional sign, then the
decimal digits grouped by thousands. -/
def commaFormat (n : ℤ) : String :=
  String.mk ((if n < 0 then ['-'] else []) ++ (group3 (natDigitsRev n.natAbs)).reverse)

/-- Python `int(x)` on a finite float: truncation toward zero. -/
def truncQ (q : ℚ) : ℤ :=
  q.num.tdiv q.den

/-- Embedding of `format_currency` (lines 139-143).  `int(x)` succeeds
exactly on finite floats, where the function returns the glyph and the
comma-grouped truncated value; on `nan`, `inf` and `-inf` the
`int` call raises and the `except` branch returns the glyph followed by
Python's rendering of the raw value. -/
def format_currency : Fl → String
  | .finite q => "₹" ++ commaFormat (truncQ q)
  | .nan => "₹nan"
  | .inf => "₹inf"
  | .ninf => "₹-inf"

/-- Currency formatting of a finite amount, as the handlers call it. -/
def fmtQ (q : ℚ) : String :=
  format_currency (Fl.finite q)

example : commaFormat 50000 = "50,000" := by decide
example : format_currency (Fl.finite 250) = "₹250" := by
  rw [format_currency, show truncQ 250 = 250 from by decide]
  decide

/-! ## Data model: the five record collections of the remote store -/

/-- Row of the `incomes` collection (insert at lines 261-267). -/
structure IncomeRow where
  telegram_id : String
  amount : ℚ
  frequency : String
  description : String
  created_at : ℕ
deriving DecidableEq

/-- Row of the `expenses` collection (insert at lines 301-307). -/
structure ExpenseRow where
  telegram_id : String
  amount : ℚ
  category : String
  note : String
  created_at : ℕ
deriving DecidableEq

/-- Row of the `budgets` collection (insert at lines 338-343). -/
structure BudgetRow where
  telegram_id : String
  category : String
  monthly_limit : ℚ
  created_at : ℕ
deriving DecidableEq

/-- Row of the `consents` collection (insert at lines 421-426). -/
structure ConsentRow where
  telegram_id : String
  consented : Bool
  scope : String
  created_at : ℕ
deriving DecidableEq

/-- Row of the `portfolios` collection.  `data` models the JSON
`data` field: `none` when it is missing or not a mapping, otherwise the
`holdings` list where each holding's optional numeric `value` is kept
(`h.get("value") or 0` turns an absent value into `0`). -/
structure PortfolioRow where
  telegram_id : String
  name : String
  data : Option (List (Option ℚ))
deriving DecidableEq

/-- State of the remote record store.  Rows are kept in insertion
order; the REST `select` calls of `app.py` request no ordering, so they
see this order. -/
structure Db where
  incomes : List IncomeRow
  expenses : List ExpenseRow
  budgets : List BudgetRow
  portfolios : List PortfolioRow
  consents : List ConsentRow
deriving DecidableEq

/-- Select on `incomes` with `telegram_id=eq.{sid}` and a row limit,
as at lines 274, 394 and 435. -/
def selectIncomes (db : Db) (sid : String) (lim : ℕ) : List IncomeRow :=
  (db.incomes.filter (fun r => r.telegram_id == sid)).take lim

/-- Select on `expenses` with `telegram_id=eq.{sid}` and a row limit,
as at lines 314, 395 and 434. -/
def selectExpenses (db : Db) (sid : String) (lim : ℕ) : List ExpenseRow :=
  (db.expenses.filter (fun r => r.telegram_id == sid)).take lim

/-- Select on `expenses` with `telegram_id=eq.{sid}` and
`created_at=gte.{ms}` plus a row limit, as at line 357. -/
def selectExpensesSince (db : Db) (sid : String) (ms : ℕ) (lim : ℕ) : List ExpenseRow :=
  (db.expenses.filter (fun r => r.telegram_id == sid && decide (ms ≤ r.created_at))).take lim

/-- Select on `budgets` with `telegram_id=eq.{sid}` and a row limit,
as at line 350. -/
def selectBudgets (db : Db) (sid : String) (lim : ℕ) : List BudgetRow :=
  (db.budgets.filter (fun r => r.telegram_id == sid)).take lim

/-- Select on `portfolios` with `telegram_id=eq.{sid}` and a row
limit, as at line 374. -/
def selectPortfolios (db : Db) (sid : String) (lim : ℕ) : List PortfolioRow :=
  (db.portfolios.filter (fun r => r.telegram_id == sid)).take lim

/-- Records scheduled for insertion by one webhook call: the message
log write (sqlite plus the Supabase `messages` row, lines 183-203) and
the per-command inserts. -/
inductive Ins where
  | msgLog (sender text : String)
  | income (r : IncomeRow)
  | expense (r : ExpenseRow)
  | budget (r : BudgetRow)
  | consent (r : ConsentRow)
deriving DecidableEq

/-! ## Command handlers (lines 223-452) -/

/-- Result of one command handler: the reply scheduled through
`reply(...)` (every handler schedules exactly one) and the records
scheduled through `background_tasks.add_task(supabase_insert, ...)`. -/
structure HOut where
  reply : Option String
  inserts : List Ins
deriving DecidableEq

/-- Environment configuration used by the handlers (`APP_URL`). -/
structure Config where
  appUrl : String
deriving DecidableEq

/-- Python `" ".join(args[k:])` as used for descriptions and notes:
empty when fewer than `k+1` arguments were given. -/
def joinTail (l : List String) : String :=
  String.intercalate " " l

/-- The `/start` greeting (lines 224-231). -/
def startText (cfg : Config) : String :=
  "Welcome to FinSight! I can store your income/expenses and show quick stats.\n" ++
  "Use /help to see commands.\n" ++
  "For detailed visual advice, open your dashboard: " ++
  (if cfg.appUrl = "" then "<dashboard link>" else cfg.appUrl)

/-- The `/help` text (lines 233-248). -/
def helpText : String :=
  "/income — show your incomes\n" ++
  "/addincome <amount> [frequency] [desc]\n" ++
  "/expense — show recent expenses\n" ++
  "/addexpense <amount> <category> [note]\n" ++
  "/budget — show budgets\n" ++
  "/setbudget <category> <limit>\n" ++
  "/portfolio — show portfolios\n" ++
  "/stats — quick savings/budget heuristics\n" ++
  "/link — get dashboard link\n" ++
  "/consent — opt-in/out for AI consultant\n" ++
  "/export — get CSV of recent transactions\n"

/-- The `/addincome` branch (lines 251-270). -/
def handleAddIncome (sid : String) (args : List String) (now : ℕ) : HOut :=
  match args with
  | [] => ⟨some "Usage: /addincome <amount> [frequency] [description]", []⟩
  | a0 :: rest =>
    match parse_amount a0 with
    | none => ⟨some "Could not parse amount. Usage: /addincome 50000 monthly salary", []⟩
    | some amount =>
      let frequency := match rest with | [] => "monthly" | f :: _ => f
      let desc := match rest with
        | [] => ""
        | _ :: ds => if ds.isEmpty then "" else joinTail ds
      ⟨some ("Added income " ++ fmtQ amount ++ " (" ++ frequency ++ ")"),
        [Ins.income ⟨sid, amount, frequency, desc, now⟩]⟩

/-- The `/income` branch (lines 273-288).  The frequency test at line
282 adds `amt` in both arms, so the total is the plain sum. -/
def handleIncome (db : Db) (sid : String) : HOut :=
  let rows := selectIncomes db sid 50
  if rows.isEmpty then
    ⟨some "No incomes found. Add one with /addincome <amount> monthly salary", []⟩
  else
    let lines := rows.map (fun r =>
      fmtQ r.amount ++ " — " ++ r.frequency ++ " — " ++ r.description)
    let total := (rows.map (·.amount)).sum
    ⟨some ("Your incomes:\n" ++ String.intercalate "\n" lines ++
      "\n\nTotal monthly (approx): " ++ fmtQ total), []⟩

/-- The `/addexpense` branch (lines 291-310). -/
def handleAddExpense (sid : String) (args : List String) (now : ℕ) : HOut :=
  match args with
  | a0 :: a1 :: rest =>
    (match parse_amount a0 with
    | none => ⟨some "Could not parse amount. Usage: /addexpense 250 food lunch", []⟩
    | some amount =>
      let note := if rest.isEmpty then "" else joinTail rest
      ⟨some ("Added expense " ++ fmtQ amount ++ " (" ++ a1 ++ ")"),
        [Ins.expense ⟨sid, amount, a1, note, now⟩]⟩)
  | _ => ⟨some "Usage: /addexpense <amount> <category> [note]", []⟩

/-- Rows shown by `/expense`: the select at line 314, `limit=5`,
no ordering requested. -/
def expenseRowsShown (db : Db) (sid : String) : List ExpenseRow :=
  selectExpenses db sid 5

/-- The `/expense` branch (lines 313-326). -/
def handleExpense (db : Db) (sid : String) : HOut :=
  let rows := expenseRowsShown db sid
  if rows.isEmpty then
    ⟨some "No expenses recorded. Add one with /addexpense 250 food lunch", []⟩
  else
    let lines := rows.map (fun r =>
      fmtQ r.amount ++ " — " ++ r.category ++ " — " ++ r.note)
    let total := (rows.map (·.amount)).sum
    ⟨some ("Recent expenses:\n" ++ String.intercalate "\n" lines ++
      "\n\nTotal (last " ++ toString rows.length ++ "): " ++ fmtQ total), []⟩

/-- The `/setbudget` branch (lines 329-346). -/
def handleSetBudget (sid : String) (args : List String) (now : ℕ) : HOut :=
  match args with
  | cat :: lim :: _ =>
    (match parse_amount lim with
    | none => ⟨some "Could not parse limit amount. Example: /setbudget food 5000", []⟩
    | some limitAmount =>
      ⟨some ("Set budget for " ++ cat ++ " = " ++ fmtQ limitAmount ++ " / month"),
        [Ins.budget ⟨sid, cat, limitAmount, now⟩]⟩)
  | _ => ⟨some "Usage: /setbudget <category> <monthly_limit>", []⟩

/-- Category key used when accumulating usage (line 360):
`e.get("category") or "other"` maps an empty category to `"other"`. -/
def effCat (e : ExpenseRow) : String :=
  if e.category = "" then "other" else e.category

/-- Lookup in the usage dictionary with default `0`
(`usage.get(cat, 0)`, line 366). -/
def dictGet (d : List (String × ℚ)) (k : String) : ℚ :=
  match d.find? (fun p => p.1 == k) with
  | some p => p.2
  | none => 0

/-- Assignment `usage[cat] = v` on the dictionary, modelled as an
association list updated in place. -/
def dictSet : List (String × ℚ) → String → ℚ → List (String × ℚ)
  | [], k, v => [(k, v)]
  | (k', v') :: rest, k, v =>
    if k' = k then (k, v) :: rest else (k', v') :: dictSet rest k v

/-- The usage-accumulation loop of `/budget` (lines 358-361):
`usage[cat] = usage.get(cat, 0) + float(e.get("amount") or 0)`. -/
def usageFold (es : List ExpenseRow) (d : List (String × ℚ)) : List (String × ℚ) :=
  es.foldl (fun d e => dictSet d (effCat e) (dictGet d (effCat e) + e.amount)) d

/-- One `/budget` report line before formatting: category, usage,
limit and utilization percent. -/
structure BEntry where
  cat : String
  used : ℚ
  limitAmt : ℚ
  pct : ℤ
deriving DecidableEq

/-- The per-budget computation of `/budget` (lines 354-368): usage per
category over the current-month expenses (limit 1000), then for each
budget row (limit 100) the used amount and
`int((used / limit) * 100) if limit > 0 else 0`. -/
def budgetEntries (db : Db) (sid : String) (ms : ℕ) : List BEntry :=
  let usage := usageFold (selectExpensesSince db sid ms 1000) []
  (selectBudgets db sid 100).map (fun b =>
    let used := dictGet usage b.category
    { cat := b.category, used := used, limitAmt := b.monthly_limit,
      pct := if (0 : ℚ) < b.monthly_limit then truncQ (used / b.monthly_limit * 100) else 0 })

/-- Rendering of one `/budget` line (line 368). -/
def budgetLine (e : BEntry) : String :=
  e.cat ++ ": " ++ fmtQ e.used ++ " used of " ++ fmtQ e.limitAmt ++ " — " ++
    toString e.pct ++ "%"

/-- The `/budget` branch (lines 349-370). -/
def handleBudget (db : Db) (sid : String) (ms : ℕ) : HOut :=
  if (selectBudgets db sid 100).isEmpty then
    ⟨some "No budgets set. Use /setbudget <category> <limit>", []⟩
  else
    ⟨some ("Budgets:\n" ++
      String.intercalate "\n" ((budgetEntries db sid ms).map budgetLine)), []⟩

/-- Approximate value of one portfolio (lines 383-387): sum of the
holdings' `value` fields, absent values counting as zero; a missing or
non-mapping `data` contributes nothing. -/
def portfolioValue (r : PortfolioRow) : ℚ :=
  match r.data with
  | none => 0
  | some holdings => (holdings.map (fun h => h.getD 0)).sum

/-- The `/portfolio` branch (lines 373-390). -/
def handlePortfolio (db : Db) (sid : String) : HOut :=
  let rows := selectPortfolios db sid 50
  if rows.isEmpty then
    ⟨some "No portfolios stored. Add via the app dashboard.", []⟩
  else
    let lines := rows.map (fun r =>
      (if r.name = "" then "unnamed" else r.name) ++ " — approx value " ++
        fmtQ (portfolioValue r))
    ⟨some ("Portfolios:\n" ++ String.intercalate "\n" lines), []⟩

/-- Total income seen by `/stats` (line 396): the amounts of the first
at most 50 of the sender's income rows. -/
def incomeSum50 (db : Db) (sid : String) : ℚ :=
  ((selectIncomes db sid 50).map (·.amount)).sum

/-- Total expenses seen by `/stats` (line 397): the amounts of the
first at most 1000 of the sender's expense rows. -/
def expenseSum1000 (db : Db) (sid : String) : ℚ :=
  ((selectExpenses db sid 1000).map (·.amount)).sum

/-- The `/stats` branch (lines 393-405). -/
def handleStats (db : Db) (sid : String) : HOut :=
  let ti := incomeSum50 db sid
  let te := expenseSum1000 db sid
  if ti = 0 then
    ⟨some "No income recorded. Add one with /addincome <amount> monthly salary", []⟩
  else
    let savings := max (ti - te) 0
    let pct : ℤ := if 0 < ti then truncQ (savings / ti * 100) else 0
    ⟨some ("Estimated savings: " ++ fmtQ savings ++ " (" ++ toString pct ++
      "% of income). Suggested target: 20% (50/30/20 heuristic)."), []⟩

/-- The `/link` branch (lines 408-411). -/
def handleLink (cfg : Config) : HOut :=
  ⟨some ("Open your dashboard: " ++
    (if cfg.appUrl = "" then "<dashboard-url>" else cfg.appUrl)), []⟩

/-- The accepted affirmative tokens of `/consent` (line 417). -/
def yesTokens : List String := ["yes", "y", "1", "true"]

/-- The accepted negative tokens of `/consent` (line 417). -/
def noTokens : List String := ["no", "n", "0", "false"]

/-- The `/consent` branch (lines 414-429): the first argument is
lower-cased (no argument acts as `""`) and matched against the two
token sets; anything else is a usage error and writes nothing. -/
def handleConsent (sid : String) (args : List String) (now : ℕ) : HOut :=
  let opt := match args with | [] => "" | a :: _ => pyLower a
  if opt ∈ yesTokens then
    ⟨some "Consent set to: True", [Ins.consent ⟨sid, true, "ai_advice", now⟩]⟩
  else if opt ∈ noTokens then
    ⟨some "Consent set to: False", [Ins.consent ⟨sid, false, "ai_advice", now⟩]⟩
  else
    ⟨some "Usage: /consent yes|no\nExample: /consent yes (to allow detailed AI advice)", []⟩

/-- CSV rendering of a rational amount.  Python prints the float
(`{e.get('amount')}`); the model prints the rational. -/
def qStr (q : ℚ) : String :=
  toString q

/-- The `/export` branch (lines 432-448): header line, one line per
expense and income (limits 500), preview of the first 10 lines. -/
def handleExport (db : Db) (sid : String) : HOut :=
  let exps := selectExpenses db sid 500
  let incs := selectIncomes db sid 500
  let lines := "type,amount,category_or_freq,note_or_desc,created_at" ::
    (exps.map (fun e =>
      "expense," ++ qStr e.amount ++ "," ++ e.category ++ "," ++ e.note ++ "," ++
        toString e.created_at) ++
     incs.map (fun i =>
      "income," ++ qStr i.amount ++ "," ++ i.frequency ++ "," ++ i.description ++ "," ++
        toString i.created_at))
  ⟨some ("Generated CSV (preview):\n" ++ String.intercalate "\n" (lines.take 10) ++
    "\n\nFull export available on dashboard."), []⟩

/-- The fallback reply for unrecognized commands (line 451). -/
def unrecognizedText : String :=
  "Command not recognized. Use /help to see available commands."

/-- The command dispatch inside the `try` block (lines 223-452): the
lower-cased first token selects the handler; anything else falls back
to the "not recognized" reply. -/
def handleCommand (cfg : Config) (sid : String) (cmd : String) (args : List String)
    (db : Db) (now ms : ℕ) : HOut :=
  if cmd = "/start" then ⟨some (startText cfg), []⟩
  else if cmd = "/help" then ⟨some helpText, []⟩
  else if cmd = "/addincome" then handleAddIncome sid args now
  else if cmd = "/income" then handleIncome db sid
  else if cmd = "/addexpense" then handleAddExpense sid args now
  else if cmd = "/expense" then handleExpense db sid
  else if cmd = "/setbudget" then handleSetBudget sid args now
  else if cmd = "/budget" then handleBudget db sid ms
  else if cmd = "/portfolio" then handlePortfolio db sid
  else if cmd = "/stats" then handleStats db sid
  else if cmd = "/link" then handleLink cfg
  else if cmd = "/consent" then handleConsent sid args now
  else if cmd = "/export" then handleExport db sid
  else ⟨some unrecognizedText, []⟩

/-! ## Webhook pipeline (lines 146-457) -/

/-- Value of the inbound message's `text` field: a JSON string, or a
non-string JSON value with its Python truthiness. -/
inductive TextVal where
  | str (s : String)
  | nonstr (truthy : Bool)
deriving DecidableEq

/-- Inbound Telegram message, with the fields the handler reads:
`chat.id`, `from.id`, the `text` field (absent for non-text content)
and `json.dumps(msg)`, the JSON serialization used as fallback text at
line 176 (never the empty string for a JSON object). -/
structure Msg where
  chatId : Option Int
  fromId : Option Int
  text : Option TextVal
  dump : String
deriving DecidableEq

/-- Line 176, `msg.get("text", "") or json.dumps(msg)`: a missing,
empty or otherwise falsy `text` field is replaced by the JSON dump of
the whole message. -/
def extractText (m : Msg) : TextVal :=
  match m.text with
  | some (TextVal.str s) => if s = "" then TextVal.str m.dump else TextVal.str s
  | some (TextVal.nonstr true) => TextVal.nonstr true
  | some (TextVal.nonstr false) => TextVal.str m.dump
  | none => TextVal.str m.dump

/-- Python truthiness of an optional integer id (`0` and `None` are
falsy). -/
def truthyInt : Option Int → Option Int
  | some 0 => none
  | some i => some i
  | none => none

/-- Line 180, `str(sender_obj.get("id") or chat.get("id") or
"unknown")`. -/
def senderId (m : Msg) : String :=
  match truthyInt m.fromId with
  | some i => toString i
  | none =>
    match truthyInt m.chatId with
    | some c => toString c
    | none => "unknown"

/-- Text stored in the message log for a non-string `text` value (the
model does not need its exact rendering). -/
def storedText : TextVal → String
  | TextVal.str s => s
  | TextVal.nonstr _ => "<non-string>"

/-- Outcome of one webhook call after secret validation: the success
acknowledgment (`{"ok": True}`), the scheduled replies and the
scheduled inserts. -/
structure WOut where
  ack : Bool
  replies : List String
  inserts : List Ins
deriving DecidableEq

/-- Generic failure reply of the `except` branch (line 456). -/
def genericErrorText : String :=
  "An error occurred while processing your command."

/-- The `try`/`except` boundary around the command handlers
(lines 223 and 454-457): a handler outcome is propagated unchanged; an
exception is swallowed and replaced by the generic error reply, and the
webhook still acknowledges. -/
def routeWithCatch (h : Except Unit HOut) : HOut :=
  match h with
  | Except.ok o => o
  | Except.error _ => ⟨some genericErrorText, []⟩

/-- The webhook body processing after secret validation
(lines 173-457): extract text and sender, log the message, acknowledge
silently when the text value is non-string or tokenizes to nothing,
otherwise dispatch on the first token under the catch boundary. -/
def processMessage (cfg : Config) (m : Msg) (db : Db) (now ms : ℕ) : WOut :=
  let tv := extractText m
  let sid := senderId m
  let logIns : List Ins := [Ins.msgLog sid (storedText tv)]
  match tv with
  | TextVal.nonstr _ => ⟨true, [], logIns⟩
  | TextVal.str t =>
    if t = "" then ⟨true, [], logIns⟩
    else
      match pySplit t with
      | [] => ⟨true, [], logIns⟩
      | c0 :: rest =>
        let out := routeWithCatch (Except.ok
          (handleCommand cfg sid (pyLower c0) rest db now ms))
        ⟨true, out.reply.toList, logIns ++ out.inserts⟩

/-- Secret check of lines 168-171: when a webhook secret is
configured, either the query secret or the header secret must be
non-empty and equal to it. -/
def secretOk (configured : String) (reqSecret headerSecret : Option String) : Bool :=
  (match reqSecret with | some s => s ≠ "" && s == configured | none => false) ||
  (match headerSecret with | some s => s ≠ "" && s == configured | none => false)

/-- Response of the webhook endpoint: 403, or 200 with a body. -/
inductive WebResp where
  | forbidden
  | ok (o : WOut)
deriving DecidableEq

/-- The full webhook endpoint `telegram_webhook` (lines 146-457). -/
def telegram_webhook (webhookSecret : String) (reqSecret headerSecret : Option String)
    (cfg : Config) (m : Msg) (db : Db) (now ms : ℕ) : WebResp :=
  if webhookSecret ≠ "" && !secretOk webhookSecret reqSecret headerSecret then
    WebResp.forbidden
  else
    WebResp.ok (processMessage cfg m db now ms)

/-- Replies actually delivered by `send_telegram_message`
(lines 109-122): nothing is sent when the bot token is unset or the
chat id is falsy. -/
def sentReplies (token : String) (chatId : Option Int) (replies : List String) :
    List String :=
  if token = "" then []
  else
    match truthyInt chatId with
    | some _ => replies
    | none => []

/-! ## Spec-side definitions

These follow the wording of the claims, to be compared with the
definitions embedded from the code. -/

/-- Claim C3 reads "the sum of the sender's income amounts": the sum
over every stored income row of the sender, with no fetch limit. -/
def specTotalIncome (db : Db) (sid : String) : ℚ :=
  ((db.incomes.filter (fun r => r.telegram_id == sid)).map (·.amount)).sum

/-- Claim C2 reads "usage as the sum of that sender's ExpenseRecord
amounts in the same category whose created_at is at or after the first
instant of the current calendar month": the sum over every matching
stored row, with no fetch limit. -/
def specBudgetUsage (db : Db) (sid : String) (ms : ℕ) (cat : String) : ℚ :=
  ((db.expenses.filter (fun e =>
    e.telegram_id == sid && decide (ms ≤ e.created_at) && e.category == cat)).map
      (·.amount)).sum

/-! ## Lemmas about the amount parser -/

/-- A digit character is not whitespace. -/
theorem isDigit_not_isWhitespace {c : Char} (h : c.isDigit = true) :
    c.isWhitespace = false := by
  rcases Bool.eq_false_or_eq_true c.isWhitespace with hw | hw
  · exfalso
    simp only [Char.isWhitespace, Bool.or_eq_true, decide_eq_true_eq] at hw
    rcases hw with ((h1 | h1) | h1) | h1 <;> subst h1 <;> exact absurd h (by decide)
  · exact hw

/-- A digit character is neither the rupee glyph nor a comma. -/
theorem isDigit_ne_sep {c : Char} (h : c.isDigit = true) : c ≠ '₹' ∧ c ≠ ',' := by
  constructor <;> rintro rfl <;> exact absurd h (by decide)

/-- An element that does not satisfy the predicate survives
`dropWhile`. -/
theorem mem_dropWhile_of_not {p : Char → Bool} {c : Char} {l : List Char}
    (hc : c ∈ l) (hp : p c = false) : c ∈ l.dropWhile p := by
  induction l with
  | nil => cases hc
  | cons a t ih =>
    by_cases ha : p a = true
    · rw [List.dropWhile_cons_of_pos ha]
      rcases List.mem_cons.mp hc with rfl | hct
      · rw [ha] at hp; cases hp
      · exact ih hct
    · rw [List.dropWhile_cons_of_neg ha]
      exact hc

/-- A digit character of a string survives Python `strip()`. -/
theorem mem_pyStrip_of_digit {c : Char} {l : List Char} (hc : c ∈ l)
    (hd : c.isDigit = true) : c ∈ pyStrip l := by
  have h1 := mem_dropWhile_of_not hc (isDigit_not_isWhitespace hd)
  have h2 := mem_dropWhile_of_not (List.mem_reverse.mpr h1) (isDigit_not_isWhitespace hd)
  exact List.mem_reverse.mpr h2

/-- `pyStrip` only removes characters. -/
theorem pyStrip_subset {c : Char} {l : List Char} (hc : c ∈ pyStrip l) : c ∈ l := by
  unfold pyStrip at hc
  have h1 := (List.dropWhile_sublist (l := (l.dropWhile Char.isWhitespace).reverse)
    (p := Char.isWhitespace)).subset (List.mem_reverse.mp hc)
  exact (List.dropWhile_sublist (p := Char.isWhitespace)).subset (List.mem_reverse.mp h1)

/-- A digit character of the raw string survives normalisation. -/
theorem digit_mem_normalizeAmount {c : Char} {raw : String} (hc : c ∈ raw.toList)
    (hd : c.isDigit = true) : c ∈ normalizeAmount raw := by
  obtain ⟨h₁, h₂⟩ := isDigit_ne_sep hd
  unfold normalizeAmount
  refine List.mem_filter.mpr ⟨List.mem_filter.mpr ⟨mem_pyStrip_of_digit hc hd, ?_⟩, ?_⟩
  · simpa using h₁
  · simpa using h₂

/-- Normalisation only removes characters. -/
theorem normalizeAmount_subset {c : Char} {raw : String}
    (hc : c ∈ normalizeAmount raw) : c ∈ raw.toList := by
  unfold normalizeAmount at hc
  exact pyStrip_subset (List.mem_filter.mp (List.mem_filter.mp hc).1).1

/-- `searchNum` fails exactly on strings with no digit. -/
theorem searchNum_eq_none_iff {cs : List Char} :
    searchNum cs = none ↔ ∀ c ∈ cs, c.isDigit = false := by
  induction cs with
  | nil => simp [searchNum]
  | cons a t ih =>
    by_cases ha : a.isDigit = true
    · simp [searchNum, ha]
    · have ha' : a.isDigit = false := by simpa using ha
      simp [searchNum, ha', ih]

/-- Values of `decVal` are non-negative. -/
theorem decVal_nonneg (ds fs : List Char) : 0 ≤ decVal ds fs := by
  rw [decVal]
  positivity

/-- `takeWhile` and `dropWhile` split an append at the first element
violating the predicate. -/
theorem takeWhile_dropWhile_append {p : Char → Bool} :
    ∀ (l1 : List Char) (a : Char) (l2 : List Char), (∀ c ∈ l1, p c = true) →
      p a = false →
      (l1 ++ a :: l2).takeWhile p = l1 ∧ (l1 ++ a :: l2).dropWhile p = a :: l2 := by
  intro l1
  induction l1 with
  | nil =>
    intro a l2 _ hpa
    simp [List.takeWhile_cons, List.dropWhile_cons, hpa]
  | cons b t ih =>
    intro a l2 hall hpa
    have hb : p b = true := hall b (List.mem_cons_self b t)
    have ht := ih a l2 (fun c hc => hall c (List.mem_cons_of_mem b hc)) hpa
    simp [List.takeWhile_cons, List.dropWhile_cons, hb, ht.1, ht.2]

/-- `fullMatch` on a non-empty all-digit string. -/
theorem fullMatch_all_digits {ds : List Char} (h1 : ds ≠ [])
    (h2 : ∀ c ∈ ds, c.isDigit = true) : fullMatch ds = some (ds, []) := by
  have he : ds.isEmpty = false := by
    cases ds with
    | nil => exact absurd rfl h1
    | cons a t => rfl
  unfold fullMatch
  rw [List.takeWhile_eq_self_iff.mpr h2, List.dropWhile_eq_nil_iff.mpr h2]
  simp [he]

/-- `fullMatch` on `digits ++ "." ++ digits`. -/
theorem fullMatch_decimal {ds fs : List Char} (hd : ds ≠ []) (hf : fs ≠ [])
    (h2 : ∀ c ∈ ds, c.isDigit = true) (h3 : ∀ c ∈ fs, c.isDigit = true) :
    fullMatch (ds ++ '.' :: fs) = some (ds, fs) := by
  obtain ⟨ht, hdr⟩ := takeWhile_dropWhile_append ds '.' fs h2 (by decide)
  have hed : ds.isEmpty = false := by
    cases ds with
    | nil => exact absurd rfl hd
    | cons a t => rfl
  have hef : fs.isEmpty = false := by
    cases fs with
    | nil => exact absurd rfl hf
    | cons a t => rfl
  unfold fullMatch
  rw [ht, hdr]
  simp [hed, List.takeWhile_eq_self_iff.mpr h3, List.dropWhile_eq_nil_iff.mpr h3, hef]

/-- Completeness: a successful `fullMatch` means the string had the
exact `digits[.digits]` shape. -/
theorem fullMatch_shape {cs ds fs : List Char}
    (h : fullMatch cs = some (ds, fs)) : NumShape cs := by
  simp only [fullMatch] at h
  split at h
  · cases h
  · next hne =>
    have hta : ∀ c ∈ cs.takeWhile Char.isDigit, c.isDigit = true :=
      fun c hc => List.mem_takeWhile_imp hc
    have htne : cs.takeWhile Char.isDigit ≠ [] := by
      intro h0
      rw [h0] at hne
      exact hne rfl
    split at h
    · next hdrop =>
      have hcs : cs = cs.takeWhile Char.isDigit := by
        conv_lhs => rw [← List.takeWhile_append_dropWhile Char.isDigit cs]
        rw [hdrop, List.append_nil]
      refine Or.inl ⟨?_, ?_⟩
      · rw [hcs]; exact htne
      · intro c hc
        rw [hcs] at hc
        exact hta c hc
    · next r2 hdrop =>
      split at h
      · cases h
      · split at h
        · next hfe hrest =>
          have hrest' : r2.dropWhile Char.isDigit = [] := List.isEmpty_iff.mp hrest
          have hr2 : r2 = r2.takeWhile Char.isDigit := by
            conv_lhs => rw [← List.takeWhile_append_dropWhile Char.isDigit r2]
            rw [hrest', List.append_nil]
          refine Or.inr ⟨cs.takeWhile Char.isDigit, r2.takeWhile Char.isDigit, ?_, htne, ?_, hta, ?_⟩
          · conv_lhs => rw [← List.takeWhile_append_dropWhile Char.isDigit cs]
            rw [hdrop, ← hr2]
          · intro h0
            rw [h0] at hfe
            exact hfe rfl
          · exact fun c hc => List.mem_takeWhile_imp hc
        · cases h
    · cases h

/-- A string of the exact numeric shape contains a digit. -/
theorem NumShape_has_digit {cs : List Char} (h : NumShape cs) :
    ∃ c ∈ cs, c.isDigit = true := by
  rcases h with ⟨hne, hall⟩ | ⟨ds, fs, rfl, hd, _, hds, _⟩
  · cases cs with
    | nil => exact absurd rfl hne
    | cons a t => exact ⟨a, List.mem_cons_self a t, hall a (List.mem_cons_self a t)⟩
  · cases ds with
    | nil => exact absurd rfl hd
    | cons a t =>
      exact ⟨a, List.mem_append.mpr (Or.inl (List.mem_cons_self a t)),
        hds a (List.mem_cons_self a t)⟩

/-- When the normalised string is not an exact numeral, `fullMatch`
fails. -/
theorem fullMatch_eq_none_of_not_NumShape {cs : List Char} (hns : ¬ NumShape cs) :
    fullMatch cs = none := by
  cases hfm : fullMatch cs with
  | none => rfl
  | some p =>
    cases p with
    | mk ds fs => exact absurd (fullMatch_shape hfm) hns

/-! ## Claim C1 -/

/-- C1: for every input string, `parse_amount` strips whitespace,
removes the currency glyph and thousands separators, and returns the
parsed decimal when the remaining string is exactly digits optionally
followed by a dot and digits, otherwise the value of the first embedded
numeric substring of that shape, otherwise `none`; in particular on
`"₹50,000"`, `"50,000"`, `"50000"`, `"250"`, `"abc"` and `""` it
returns `50000`, `50000`, `50000`, `250`, `none` and `none`. -/
theorem parse_amount_spec (raw : String) :
    (∀ ds : List Char, normalizeAmount raw = ds → ds ≠ [] →
      (∀ c ∈ ds, c.isDigit = true) → parse_amount raw = some (decVal ds [])) ∧
    (∀ ds fs : List Char, normalizeAmount raw = ds ++ '.' :: fs → ds ≠ [] → fs ≠ [] →
      (∀ c ∈ ds, c.isDigit = true) → (∀ c ∈ fs, c.isDigit = true) →
      parse_amount raw = some (decVal ds fs)) ∧
    (¬ NumShape (normalizeAmount raw) →
      parse_amount raw = (searchNum (normalizeAmount raw)).map (fun p => decVal p.1 p.2)) ∧
    (searchNum (normalizeAmount raw) = none → parse_amount raw = none) ∧
    parse_amount "₹50,000" = some 50000 ∧ parse_amount "50,000" = some 50000 ∧
    parse_amount "50000" = some 50000 ∧ parse_amount "250" = some 250 ∧
    parse_amount "abc" = none ∧ parse_amount "" = none := by
  refine ⟨?_, ?_, ?_, ?_, ?_, ?_, ?_, ?_, rfl, rfl⟩
  · intro ds hds hne hdig
    have hraw : ¬ raw = "" := by
      rintro rfl
      rw [show normalizeAmount "" = [] from rfl] at hds
      exact hne hds.symm
    rw [parse_amount, if_neg hraw, hds, fullMatch_all_digits hne hdig]
  · intro ds fs hds hd hf hdig hfig
    have hraw : ¬ raw = "" := by
      rintro rfl
      rw [show normalizeAmount "" = [] from rfl] at hds
      cases ds with
      | nil => exact hd rfl
      | cons a t => cases hds
    rw [parse_amount, if_neg hraw, hds, fullMatch_decimal hd hf hdig hfig]
  · intro hns
    by_cases hraw : raw = ""
    · subst hraw
      rw [show parse_amount "" = none from rfl, show normalizeAmount "" = [] from rfl]
      rfl
    · rw [parse_amount, if_neg hraw, fullMatch_eq_none_of_not_NumShape hns]
      cases hs : searchNum (normalizeAmount raw) with
      | none => rfl
      | some p => cases p; rfl
  · intro hsn
    by_cases hraw : raw = ""
    · subst hraw; rfl
    · have hfm : fullMatch (normalizeAmount raw) = none := by
        refine fullMatch_eq_none_of_not_NumShape ?_
        intro hns
        obtain ⟨c, hc, hcd⟩ := NumShape_has_digit hns
        have := searchNum_eq_none_iff.mp hsn c hc
        rw [hcd] at this
        cases this
      rw [parse_amount, if_neg hraw, hfm, hsn]
  · rw [show parse_amount "₹50,000" = some (decVal ['5', '0', '0', '0', '0'] []) from rfl,
      decVal_eq 50000 0 (by decide) (by decide)]
    norm_num
  · rw [show parse_amount "50,000" = some (decVal ['5', '0', '0', '0', '0'] []) from rfl,
      decVal_eq 50000 0 (by decide) (by decide)]
    norm_num
  · rw [show parse_amount "50000" = some (decVal ['5', '0', '0', '0', '0'] []) from rfl,
      decVal_eq 50000 0 (by decide) (by decide)]
    norm_num
  · rw [show parse_amount "250" = some (decVal ['2', '5', '0'] []) from rfl,
      decVal_eq 250 0 (by decide) (by decide)]
    norm_num

/-- Witness for C1, at the inputs `"777"` (exact match) and the
claim's own examples. -/
theorem parse_amount_spec_witness :
    normalizeAmount "777" = ['7', '7', '7'] ∧
    parse_amount "777" = some (decVal ['7', '7', '7'] []) :=
  ⟨by decide, (parse_amount_spec "777").1 ['7', '7', '7'] (by decide) (by decide) (by decide)⟩

/-! ## Claim C9 -/

/-- C9: `parse_amount` returns `none` exactly when the input has no
decimal digit, every returned value is non-negative (signs are
discarded), and in particular `parse_amount "-50" = 50` and
`parse_amount "abc123" = 123`. -/
theorem parse_amount_none_iff_no_digit (raw : String) :
    (parse_amount raw = none ↔ ∀ c ∈ raw.toList, c.isDigit = false) ∧
    (∀ q : ℚ, parse_amount raw = some q → 0 ≤ q) ∧
    parse_amount "-50" = some 50 ∧ parse_amount "abc123" = some 123 := by
  refine ⟨⟨?_, ?_⟩, ?_, ?_, ?_⟩
  · intro hnone c hc
    rcases Bool.eq_false_or_eq_true c.isDigit with hcd | hcd
    · exfalso
      have hmem := digit_mem_normalizeAmount hc hcd
      have hraw : ¬ raw = "" := by
        rintro rfl
        cases hc
      obtain ⟨p, hp⟩ : ∃ p, searchNum (normalizeAmount raw) = some p := by
        cases hs : searchNum (normalizeAmount raw) with
        | none =>
          have := searchNum_eq_none_iff.mp hs c hmem
          rw [hcd] at this
          cases this
        | some p => exact ⟨p, rfl⟩
      rw [parse_amount, if_neg hraw] at hnone
      cases hfm : fullMatch (normalizeAmount raw) with
      | none =>
        rw [hfm, hp] at hnone
        cases p
        cases hnone
      | some p' =>
        rw [hfm] at hnone
        cases p'
        cases hnone
    · exact hcd
  · intro hall
    by_cases hraw : raw = ""
    · subst hraw; rfl
    · have hnz : ∀ c ∈ normalizeAmount raw, c.isDigit = false :=
        fun c hc => hall c (normalizeAmount_subset hc)
      have hsn : searchNum (normalizeAmount raw) = none := searchNum_eq_none_iff.mpr hnz
      have hfm : fullMatch (normalizeAmount raw) = none := by
        refine fullMatch_eq_none_of_not_NumShape ?_
        intro hns
        obtain ⟨c, hc, hcd⟩ := NumShape_has_digit hns
        rw [hnz c hc] at hcd
        cases hcd
      rw [parse_amount, if_neg hraw, hfm, hsn]
  · intro q hq
    rw [parse_amount] at hq
    split at hq
    · cases hq
    · split at hq
      · next ds fs _ =>
        injection hq with hq'
        rw [← hq']
        exact decVal_nonneg ds fs
      · split at hq
        · next ds fs _ =>
          injection hq with hq'
          rw [← hq']
          exact decVal_nonneg ds fs
        · cases hq
  · rw [show parse_amount "-50" = some (decVal ['5', '0'] []) from rfl,
      decVal_eq 50 0 (by decide) (by decide)]
    norm_num
  · rw [show parse_amount "abc123" = some (decVal ['1', '2', '3'] []) from rfl,
      decVal_eq 123 0 (by decide) (by decide)]
    norm_num

/-- Witness for C9, at the input `"-50"`. -/
theorem parse_amount_none_iff_no_digit_witness :
    parse_amount "-50" = some 50 ∧ (0 : ℚ) ≤ 50 :=
  ⟨(parse_amount_none_iff_no_digit "-50").2.2.1,
    (parse_amount_none_iff_no_digit "-50").2.1 50
      (parse_amount_none_iff_no_digit "-50").2.2.1⟩

/-! ## Lemmas about the currency formatter -/

/-- `Nat.digitChar` of a value below ten is a digit character. -/
theorem digitChar_isDigit {m : ℕ} (h : m < 10) : (Nat.digitChar m).isDigit = true := by
  interval_cases m <;> decide

/-- Every character produced by `natDigitsAux` is a digit. -/
theorem natDigitsAux_digits :
    ∀ (fuel n : ℕ), ∀ c ∈ natDigitsAux fuel n, c.isDigit = true := by
  intro fuel
  induction fuel with
  | zero => intro n c hc; cases hc
  | succ f ih =>
    intro n c hc
    cases n with
    | zero => cases hc
    | succ m =>
      rcases List.mem_cons.mp hc with rfl | hc'
      · exact digitChar_isDigit (Nat.mod_lt _ (by omega))
      · exact ih _ c hc'

/-- Every character produced by `natDigitsRev` is a digit. -/
theorem natDigitsRev_digits {n : ℕ} {c : Char} (hc : c ∈ natDigitsRev n) :
    c.isDigit = true := by
  unfold natDigitsRev at hc
  split at hc
  · rcases List.mem_singleton.mp hc with rfl
    decide
  · exact natDigitsAux_digits _ _ c hc

/-- Removing the commas of a grouped digit string recovers the comma
filtrate of the input. -/
theorem group3_filter (l : List Char) :
    (group3 l).filter (fun c => c ≠ ',') = l.filter (fun c => c ≠ ',') := by
  induction l using group3.induct with
  | case1 a b c d rest ih =>
    simp only [group3, List.filter_cons, ih,
      show (decide ((',' : Char) ≠ ',')) = false from by decide]
    simp
  | case2 l h =>
    rw [group3.eq_def]
    split
    · next a b c d rest => exact absurd rfl (h a b c d rest)
    · rfl

/-- The digits of a natural number contain no comma. -/
theorem natDigitsRev_filter (n : ℕ) :
    (natDigitsRev n).filter (fun c => c ≠ ',') = natDigitsRev n := by
  refine List.filter_eq_self.mpr ?_
  intro c hc
  have hd := natDigitsRev_digits hc
  simp only [decide_eq_true_eq]
  rintro rfl
  exact absurd hd (by decide)

/-- `truncQ` agrees with the floor on non-negative rationals. -/
theorem truncQ_eq_floor {q : ℚ} (h : 0 ≤ q) : truncQ q = ⌊q⌋ := by
  rw [truncQ, Rat.floor_def]
  exact Int.tdiv_eq_ediv (Rat.num_nonneg.mpr h) (Int.ofNat_nonneg q.den)

/-! ## Claim C8 -/

/-- C8: `format_currency` is total on every float value, including the
non-finite ones: on finite values it returns the glyph followed by the
comma-grouped truncated integer part (`format_currency 50000 =
"₹50,000"`, and removing the commas of the output recovers exactly the
sign and decimal digits of the truncated value), and on `nan`, `inf`
and `-inf` the grouping fails and it falls back to the glyph followed
by the raw value. -/
theorem format_currency_spec :
    format_currency (Fl.finite 50000) = "₹50,000" ∧
    (∀ q : ℚ, format_currency (Fl.finite q) = "₹" ++ commaFormat (truncQ q)) ∧
    (∀ n : ℤ, (commaFormat n).toList.filter (fun c => c ≠ ',') =
      (if n < 0 then ['-'] else []) ++ (natDigitsRev n.natAbs).reverse) ∧
    format_currency Fl.nan = "₹nan" ∧ format_currency Fl.inf = "₹inf" ∧
    format_currency Fl.ninf = "₹-inf" := by
  refine ⟨?_, fun q => rfl, ?_, rfl, rfl, rfl⟩
  · show "₹" ++ commaFormat (truncQ 50000) = "₹50,000"
    rw [show truncQ 50000 = 50000 from by decide]
    decide
  · intro n
    show ((if n < 0 then ['-'] else []) ++ (group3 (natDigitsRev n.natAbs)).reverse).filter
        (fun c => c ≠ ',') = _
    rw [List.filter_append, List.filter_reverse, group3_filter, natDigitsRev_filter]
    congr 1
    split <;> decide

/-! ## Claim C10 -/

/-- C10: on a finite non-negative value the formatter renders only the
integer part, truncated (`format_currency 250.75 = "₹250"`), while the
`/addexpense` handler stores the full parsed amount in the expense
record and only the confirmation reply shows the truncation. -/
theorem format_currency_truncates :
    (∀ q : ℚ, 0 ≤ q → format_currency (Fl.finite q) = "₹" ++ commaFormat ⌊q⌋) ∧
    format_currency (Fl.finite (1003 / 4)) = "₹250" ∧
    (∀ (sid a0 a1 : String) (now : ℕ) (q : ℚ), parse_amount a0 = some q → 0 ≤ q →
      handleAddExpense sid [a0, a1] now =
        ⟨some ("Added expense " ++ ("₹" ++ commaFormat ⌊q⌋) ++ " (" ++ a1 ++ ")"),
          [Ins.expense ⟨sid, q, a1, "", now⟩]⟩) := by
  have hfin : ∀ q : ℚ, 0 ≤ q → format_currency (Fl.finite q) = "₹" ++ commaFormat ⌊q⌋ := by
    intro q hq
    show "₹" ++ commaFormat (truncQ q) = _
    rw [truncQ_eq_floor hq]
  have hfloor : truncQ (1003 / 4 : ℚ) = 250 := by
    rw [truncQ_eq_floor (by norm_num), Int.floor_eq_iff]
    norm_num
  refine ⟨hfin, ?_, ?_⟩
  · show "₹" ++ commaFormat (truncQ (1003 / 4)) = "₹250"
    rw [hfloor]
    decide
  · intro sid a0 a1 now q hq hq0
    rw [handleAddExpense, hq]
    show HOut.mk (some ("Added expense " ++ fmtQ q ++ " (" ++ a1 ++ ")")) _ = _
    rw [show fmtQ q = format_currency (Fl.finite q) from rfl, hfin q hq0]
    rfl

/-- Witness for C10, at the value `250.75 = 1003/4` and the call
`/addexpense 250.75 food`. -/
theorem format_currency_truncates_witness :
    ((0 : ℚ) ≤ 1003 / 4 ∧
      format_currency (Fl.finite (1003 / 4)) = "₹" ++ commaFormat ⌊(1003 / 4 : ℚ)⌋) ∧
    (parse_amount "250.75" = some (1003 / 4) ∧
      handleAddExpense "7" ["250.75", "food"] 3 =
        ⟨some ("Added expense " ++ ("₹" ++ commaFormat ⌊(1003 / 4 : ℚ)⌋) ++ " (" ++ "food" ++ ")"),
          [Ins.expense ⟨"7", 1003 / 4, "food", "", 3⟩]⟩) := by
  have hp : parse_amount "250.75" = some (1003 / 4) := by
    rw [show parse_amount "250.75" = some (decVal ['2', '5', '0'] ['7', '5']) from rfl,
      decVal_eq 250 75 (by decide) (by decide)]
    norm_num
  exact ⟨⟨by norm_num, format_currency_truncates.1 (1003 / 4) (by norm_num)⟩,
    ⟨hp, format_currency_truncates.2.2 "7" "250.75" "food" 3 (1003 / 4) hp (by norm_num)⟩⟩

/-! ## Claim C4 -/

/-- C4: the `/consent` handler writes a consented-true record exactly
when the lower-cased first argument is one of yes/y/1/true, a
consented-false record exactly when it is one of no/n/0/false, and for
any other argument (or no argument) replies with the usage error and
writes nothing. -/
theorem consent_spec (sid : String) (args : List String) (now : ℕ) :
    ((∃ a t, args = a :: t ∧ pyLower a ∈ yesTokens) →
      handleConsent sid args now =
        ⟨some "Consent set to: True", [Ins.consent ⟨sid, true, "ai_advice", now⟩]⟩) ∧
    ((∃ a t, args = a :: t ∧ pyLower a ∈ noTokens) →
      handleConsent sid args now =
        ⟨some "Consent set to: False", [Ins.consent ⟨sid, false, "ai_advice", now⟩]⟩) ∧
    ((∀ a t, args = a :: t → pyLower a ∉ yesTokens ∧ pyLower a ∉ noTokens) →
      handleConsent sid args now =
        ⟨some "Usage: /consent yes|no\nExample: /consent yes (to allow detailed AI advice)",
          []⟩) := by
  refine ⟨?_, ?_, ?_⟩
  · rintro ⟨a, t, rfl, hy⟩
    simp only [handleConsent]
    rw [if_pos hy]
  · rintro ⟨a, t, rfl, hn⟩
    have hy : pyLower a ∉ yesTokens := by
      intro hy
      have hn' : pyLower a = "no" ∨ pyLower a = "n" ∨ pyLower a = "0" ∨ pyLower a = "false" := by
        simpa [noTokens] using hn
      rcases hn' with g | g | g | g <;> rw [g] at hy <;> exact absurd hy (by decide)
    simp only [handleConsent]
    rw [if_neg hy, if_pos hn]
  · intro h3
    cases args with
    | nil =>
      simp only [handleConsent]
      rw [if_neg (by decide), if_neg (by decide)]
    | cons a t =>
      obtain ⟨hy, hn⟩ := h3 a t rfl
      simp only [handleConsent]
      rw [if_neg hy, if_neg hn]

/-- Witness for C4, at the argument `"YES"`. -/
theorem consent_spec_witness :
    handleConsent "7" ["YES"] 5 =
      ⟨some "Consent set to: True", [Ins.consent ⟨"7", true, "ai_advice", 5⟩]⟩ :=
  (consent_spec "7" ["YES"] 5).1 ⟨"YES", [], rfl, by decide⟩

/-! ## Claim C5 -/

/-- C5: the catch at the command-router boundary turns any failing
handler execution into the generic error reply, and the webhook
processing acknowledges success on every input (no handler exception
propagates). -/
theorem router_boundary :
    (∀ (h : Except Unit HOut) (e : Unit), h = Except.error e →
      routeWithCatch h = ⟨some genericErrorText, []⟩) ∧
    (∀ (cfg : Config) (m : Msg) (db : Db) (now ms : ℕ),
      (processMessage cfg m db now ms).ack = true) := by
  constructor
  · rintro h e rfl
    rfl
  · intro cfg m db now ms
    simp only [processMessage]
    split
    · rfl
    · split
      · rfl
      · split
        · rfl
        · rfl

/-- Witness for C5: a failing handler at the boundary, and the
acknowledgment on a concrete payload. -/
theorem router_boundary_witness :
    routeWithCatch (Except.error ()) = ⟨some genericErrorText, []⟩ ∧
    (processMessage ⟨""⟩ ⟨none, none, none, "x"⟩ ⟨[], [], [], [], []⟩ 0 0).ack = true :=
  ⟨router_boundary.1 (Except.error ()) () rfl,
    router_boundary.2 ⟨""⟩ ⟨none, none, none, "x"⟩ ⟨[], [], [], [], []⟩ 0 0⟩

/-! ## Claim C6 -/

/-- Failing input for C6: a photo message with a valid chat id and no
`text` field; its JSON dump is the fallback text of line 176. -/
def photoMsg : Msg :=
  ⟨some 5, some 5, none, "\x7b\"chat\": \x7b\"id\": 5\x7d, \"photo\": []\x7d"⟩

/-- C6 fails on the code: for a non-text message the fallback
`or json.dumps(msg)` of line 176 replaces the empty text with the JSON
dump, so the guard at line 206 never fires; the dump is tokenized as a
command, falls through to the fallback handler, and the
"Command not recognized" reply IS sent to the user's chat. -/
theorem nontext_payload_gets_reply :
    photoMsg.text = none ∧
    (processMessage ⟨""⟩ photoMsg ⟨[], [], [], [], []⟩ 0 0).replies = [unrecognizedText] ∧
    sentReplies "tok" photoMsg.chatId
      (processMessage ⟨""⟩ photoMsg ⟨[], [], [], [], []⟩ 0 0).replies = [unrecognizedText] := by
  refine ⟨rfl, by decide, by decide⟩

/-! ## Claim C7 -/

/-- Expense row used by the C7 failing input: amount and `created_at`
both equal to `k`. -/
def expRowK (k : ℕ) : ExpenseRow :=
  ⟨"u", (k : ℚ), "food", "", k⟩

/-- Failing input for C7: six expenses of one sender, inserted in
chronological order. -/
def sixExpenseDb : Db :=
  ⟨[], [expRowK 1, expRowK 2, expRowK 3, expRowK 4, expRowK 5, expRowK 6], [], [], []⟩

/-- C7 fails on the code: the `/expense` select requests no ordering,
so with the six stored expenses the handler lists the first five rows
in store order — every one of them older than the omitted sixth — not
the five most recent. -/
theorem expense_rows_not_most_recent :
    expenseRowsShown sixExpenseDb "u" =
      [expRowK 1, expRowK 2, expRowK 3, expRowK 4, expRowK 5] ∧
    expRowK 6 ∈ sixExpenseDb.expenses ∧ (expRowK 6).telegram_id = "u" ∧
    (∀ r ∈ expenseRowsShown sixExpenseDb "u", r.created_at < (expRowK 6).created_at) := by
  refine ⟨by decide, by decide, rfl, by decide⟩

/-! ## Lemmas about the usage dictionary of the budget handler -/

/-- Reading back the key just written. -/
theorem dictGet_dictSet_self (d : List (String × ℚ)) (k : String) (v : ℚ) :
    dictGet (dictSet d k v) k = v := by
  induction d with
  | nil => simp [dictGet, dictSet, List.find?]
  | cons p rest ih =>
    obtain ⟨k', v'⟩ := p
    by_cases h : k' = k
    · subst h
      simp [dictGet, dictSet, List.find?]
    · simp only [dictSet, if_neg h, dictGet, List.find?]
      rw [show (k' == k) = false from by simpa using h]
      exact ih

/-- Writing one key leaves the others unchanged. -/
theorem dictGet_dictSet_ne (d : List (String × ℚ)) {k k' : String} (v : ℚ)
    (h : k' ≠ k) : dictGet (dictSet d k v) k' = dictGet d k' := by
  induction d with
  | nil =>
    simp only [dictSet, dictGet, List.find?]
    rw [show (k == k') = false from by simpa using fun e => h e.symm]
  | cons p rest ih =>
    obtain ⟨k'', v''⟩ := p
    by_cases hk : k'' = k
    · have h1 : (k == k') = false := by simpa using fun e => h e.symm
      have h2 : (k'' == k') = false := by rw [hk]; exact h1
      simp only [dictSet, if_pos hk, dictGet, List.find?, h1, h2]
    · simp only [dictSet, if_neg hk, dictGet, List.find?]
      cases hf : (k'' == k') with
      | true => rfl
      | false => exact ih

/-- The usage fold of `/budget` computes, for every key, the previous
value plus the sum of the amounts of the expenses whose effective
category is that key. -/
theorem dictGet_usageFold (es : List ExpenseRow) (d : List (String × ℚ)) (k : String) :
    dictGet (usageFold es d) k =
      dictGet d k + ((es.filter (fun e => effCat e == k)).map (·.amount)).sum := by
  induction es generalizing d with
  | nil => simp [usageFold]
  | cons e es ih =>
    have step : usageFold (e :: es) d =
        usageFold es (dictSet d (effCat e) (dictGet d (effCat e) + e.amount)) := by
      simp [usageFold]
    rw [step, ih]
    by_cases h : effCat e = k
    · subst h
      rw [dictGet_dictSet_self, List.filter_cons_of_pos (by simp), List.map_cons,
        List.sum_cons]
      ring
    · rw [dictGet_dictSet_ne _ _ (fun e' => h e'.symm),
        List.filter_cons_of_neg (by simpa using h)]

/-- Rows returned by the month-scoped expense select are stored
expense rows. -/
theorem mem_selectExpensesSince {db : Db} {sid : String} {ms lim : ℕ} {e : ExpenseRow}
    (he : e ∈ selectExpensesSince db sid ms lim) : e ∈ db.expenses :=
  List.mem_of_mem_filter (List.take_subset _ _ he)

/-! ## Claim C2 -/

/-- C2 (amended): for senders whose stored expense rows obey the data
model (non-empty category, non-negative amount), every `/budget` entry
reports, per budget row among the first 100 fetched, a usage equal to
the sum of the amounts of the first at most 1000 current-month expense
rows of the same category, and a utilization percent equal to
`⌊usage / limit * 100⌋` when the limit is positive and `0` otherwise. -/
theorem budget_utilization (db : Db) (sid : String) (ms : ℕ)
    (hcat : ∀ e ∈ db.expenses, e.category ≠ "")
    (hnn : ∀ e ∈ db.expenses, 0 ≤ e.amount) :
    budgetEntries db sid ms = (selectBudgets db sid 100).map (fun b =>
      let used := (((selectExpensesSince db sid ms 1000).filter
        (fun e => e.category == b.category)).map (·.amount)).sum
      { cat := b.category, used := used, limitAmt := b.monthly_limit,
        pct := if (0 : ℚ) < b.monthly_limit then ⌊used / b.monthly_limit * 100⌋
          else 0 }) := by
  rw [budgetEntries]
  refine List.map_congr_left ?_
  intro b _
  have hfilter : (selectExpensesSince db sid ms 1000).filter (fun e => effCat e == b.category)
      = (selectExpensesSince db sid ms 1000).filter (fun e => e.category == b.category) := by
    refine List.filter_congr ?_
    intro e he
    rw [effCat, if_neg (hcat e (mem_selectExpensesSince he))]
  have hused : dictGet (usageFold (selectExpensesSince db sid ms 1000) []) b.category
      = (((selectExpensesSince db sid ms 1000).filter
          (fun e => e.category == b.category)).map (·.amount)).sum := by
    rw [dictGet_usageFold, hfilter]
    simp [dictGet]
  have hnn' : (0 : ℚ) ≤ (((selectExpensesSince db sid ms 1000).filter
      (fun e => e.category == b.category)).map (·.amount)).sum := by
    refine List.sum_nonneg ?_
    intro x hx
    obtain ⟨e, he, rfl⟩ := List.mem_map.mp hx
    exact hnn e (mem_selectExpensesSince (List.mem_of_mem_filter he))
  simp only [hused]
  by_cases hl : (0 : ℚ) < b.monthly_limit
  · rw [if_pos hl, if_pos hl, truncQ_eq_floor]
    exact mul_nonneg (div_nonneg hnn' (le_of_lt hl)) (by norm_num)
  · rw [if_neg hl, if_neg hl]

/-- Witness for C2: the spec example — a budget of 5000 for "food" and
one current-month food expense of 1000 reports 20%. -/
theorem budget_utilization_witness :
    (∀ e ∈ (Db.mk [] [⟨"u", 1000, "food", "", 5⟩] [⟨"u", "food", 5000, 1⟩] [] []).expenses,
      e.category ≠ "") ∧
    budgetEntries (Db.mk [] [⟨"u", 1000, "food", "", 5⟩] [⟨"u", "food", 5000, 1⟩] [] [])
      "u" 0 = [⟨"food", 1000, 5000, 20⟩] := by
  have hcat : ∀ e ∈ (Db.mk [] [⟨"u", 1000, "food", "", 5⟩] [⟨"u", "food", 5000, 1⟩] [] []).expenses,
      e.category ≠ "" := by decide
  have hnn : ∀ e ∈ (Db.mk [] [⟨"u", 1000, "food", "", 5⟩] [⟨"u", "food", 5000, 1⟩] [] []).expenses,
      (0 : ℚ) ≤ e.amount := by
    intro e he
    rcases List.mem_singleton.mp he with rfl
    norm_num
  refine ⟨hcat, ?_⟩
  rw [budget_utilization _ "u" 0 hcat hnn]
  rw [show selectBudgets (Db.mk [] [⟨"u", 1000, "food", "", 5⟩] [⟨"u", "food", 5000, 1⟩] [] [])
      "u" 100 = [⟨"u", "food", 5000, 1⟩] from by decide]
  rw [show selectExpensesSince (Db.mk [] [⟨"u", 1000, "food", "", 5⟩] [⟨"u", "food", 5000, 1⟩] [] [])
      "u" 0 1000 = [⟨"u", 1000, "food", "", 5⟩] from by decide]
  simp only [List.map_cons, List.map_nil, List.filter]
  norm_num

/-- Expense row of the C2 counterexample. -/
def cexExpenseRow : ExpenseRow :=
  ⟨"u", 1, "food", "", 5⟩

/-- Budget row of the C2 counterexample. -/
def cexBudgetRow : BudgetRow :=
  ⟨"u", "food", 100, 1⟩

/-- C2 counterexample state: 1001 current-month food expenses of 1. -/
def cexBudgetDb : Db :=
  ⟨[], List.replicate 1001 cexExpenseRow, [cexBudgetRow], [], []⟩

/-- C2 as stated is false: with 1001 current-month food expenses of
amount 1 and a food budget of 100, the claim's usage (the sum over all
of the sender's month expenses, 1001) gives `⌊1001/100*100⌋ = 1001`,
but the handler fetched only 1000 rows and reports 1000. -/
theorem budget_full_sum_cex :
    ¬ ((budgetEntries cexBudgetDb "u" 0).map BEntry.pct =
      [⌊specBudgetUsage cexBudgetDb "u" 0 "food" / (100 : ℚ) * 100⌋]) := by
  have hsel : selectExpensesSince cexBudgetDb "u" 0 1000 =
      List.replicate 1000 cexExpenseRow := by
    rw [selectExpensesSince,
      show cexBudgetDb.expenses = List.replicate 1001 cexExpenseRow from rfl,
      List.filter_replicate, if_pos (by decide), List.take_replicate]
    norm_num
  have hbud : selectBudgets cexBudgetDb "u" 100 = [cexBudgetRow] := by decide
  have hused : dictGet (usageFold (selectExpensesSince cexBudgetDb "u" 0 1000) [])
      "food" = 1000 := by
    rw [hsel, dictGet_usageFold, List.filter_replicate, if_pos (by decide),
      List.map_replicate, List.sum_replicate]
    simp [dictGet, nsmul_eq_mul, cexExpenseRow]
  have hentries : budgetEntries cexBudgetDb "u" 0 = [⟨"food", 1000, 100, 1000⟩] := by
    rw [budgetEntries, hbud]
    simp only [List.map_cons, List.map_nil]
    rw [show cexBudgetRow.category = "food" from rfl,
      show cexBudgetRow.monthly_limit = 100 from rfl, hused,
      if_pos (by norm_num : (0 : ℚ) < 100),
      show (1000 : ℚ) / 100 * 100 = 1000 by norm_num,
      truncQ_eq_floor (by norm_num)]
    norm_num
  have hspec : specBudgetUsage cexBudgetDb "u" 0 "food" = 1001 := by
    rw [specBudgetUsage,
      show cexBudgetDb.expenses = List.replicate 1001 cexExpenseRow from rfl,
      List.filter_replicate, if_pos (by decide), List.map_replicate, List.sum_replicate]
    simp [nsmul_eq_mul, cexExpenseRow]
  intro hclaim
  rw [hentries, hspec, show (1001 : ℚ) / 100 * 100 = 1001 by norm_num] at hclaim
  simp only [List.map_cons, List.map_nil] at hclaim
  rw [show ⌊(1001 : ℚ)⌋ = 1001 from by norm_num] at hclaim
  exact absurd hclaim (by decide)

/-! ## Claim C3 -/

/-- C3 (amended): when the sum of the first at most 50 fetched income
amounts is zero, `/stats` replies with the add-income prompt and writes
nothing; when that sum is positive, it reports estimated savings
`max(total_income - total_expenses, 0)` (expenses summed over the first
at most 1000 fetched rows) and a savings rate of
`⌊savings / total_income * 100⌋`. -/
theorem stats_spec (db : Db) (sid : String) :
    (incomeSum50 db sid = 0 →
      handleStats db sid =
        ⟨some "No income recorded. Add one with /addincome <amount> monthly salary", []⟩) ∧
    (0 < incomeSum50 db sid →
      handleStats db sid =
        ⟨some ("Estimated savings: " ++
          fmtQ (max (incomeSum50 db sid - expenseSum1000 db sid) 0) ++ " (" ++
          toString ⌊max (incomeSum50 db sid - expenseSum1000 db sid) 0 /
            incomeSum50 db sid * 100⌋ ++
          "% of income). Suggested target: 20% (50/30/20 heuristic)."), []⟩) := by
  constructor
  · intro h0
    simp only [handleStats]
    rw [if_pos h0]
  · intro hpos
    have hne : ¬ incomeSum50 db sid = 0 := ne_of_gt hpos
    simp only [handleStats]
    rw [if_neg hne, if_pos hpos, truncQ_eq_floor]
    exact mul_nonneg
      (div_nonneg (le_max_right _ _) (le_of_lt hpos)) (by norm_num)

/-- Witness for C3: one stored income of 100 and no expenses. -/
theorem stats_spec_witness :
    0 < incomeSum50 (Db.mk [⟨"u", 100, "monthly", "", 0⟩] [] [] [] []) "u" ∧
    handleStats (Db.mk [⟨"u", 100, "monthly", "", 0⟩] [] [] [] []) "u" =
      ⟨some ("Estimated savings: " ++
        fmtQ (max (incomeSum50 (Db.mk [⟨"u", 100, "monthly", "", 0⟩] [] [] [] []) "u" -
          expenseSum1000 (Db.mk [⟨"u", 100, "monthly", "", 0⟩] [] [] [] []) "u") 0) ++ " (" ++
        toString ⌊max (incomeSum50 (Db.mk [⟨"u", 100, "monthly", "", 0⟩] [] [] [] []) "u" -
          expenseSum1000 (Db.mk [⟨"u", 100, "monthly", "", 0⟩] [] [] [] []) "u") 0 /
          incomeSum50 (Db.mk [⟨"u", 100, "monthly", "", 0⟩] [] [] [] []) "u" * 100⌋ ++
        "% of income). Suggested target: 20% (50/30/20 heuristic)."), []⟩ := by
  have hval : incomeSum50 (Db.mk [⟨"u", 100, "monthly", "", 0⟩] [] [] [] []) "u" = 100 := by
    rw [incomeSum50, show selectIncomes (Db.mk [⟨"u", 100, "monthly", "", 0⟩] [] [] [] [])
      "u" 50 = [⟨"u", 100, "monthly", "", 0⟩] from by decide]
    simp
  have hpos : 0 < incomeSum50 (Db.mk [⟨"u", 100, "monthly", "", 0⟩] [] [] [] []) "u" := by
    rw [hval]
    norm_num
  exact ⟨hpos, (stats_spec (Db.mk [⟨"u", 100, "monthly", "", 0⟩] [] [] [] []) "u").2 hpos⟩

/-- Zero-amount income row of the C3 counterexample. -/
def zeroIncomeRow : IncomeRow :=
  ⟨"u", 0, "monthly", "", 0⟩

/-- Positive income row of the C3 counterexample, stored after the 50
zero rows. -/
def posIncomeRow : IncomeRow :=
  ⟨"u", 100, "monthly", "", 0⟩

/-- C3 counterexample state: 50 zero incomes followed by one of 100. -/
def cexStatsDb : Db :=
  ⟨List.replicate 50 zeroIncomeRow ++ [posIncomeRow], [], [], [], []⟩

/-- C3 as stated is false: the sender's income amounts sum to 100 > 0,
yet `/stats` fetches only the first 50 rows (the zero ones), computes
total income 0, and replies with the add-income prompt instead of
reporting savings. -/
theorem stats_full_sum_cex :
    0 < specTotalIncome cexStatsDb "u" ∧
    (handleStats cexStatsDb "u").reply =
      some "No income recorded. Add one with /addincome <amount> monthly salary" := by
  have hfp : (fun r : IncomeRow => r.telegram_id == "u") zeroIncomeRow = true := by decide
  have hti : incomeSum50 cexStatsDb "u" = 0 := by
    rw [incomeSum50, selectIncomes,
      show cexStatsDb.incomes = List.replicate 50 zeroIncomeRow ++ [posIncomeRow] from rfl,
      List.filter_append, List.filter_replicate, if_pos hfp,
      show List.filter (fun r : IncomeRow => r.telegram_id == "u") [posIncomeRow] =
        [posIncomeRow] from by decide,
      List.take_left' (List.length_replicate 50 zeroIncomeRow),
      List.map_replicate, List.sum_replicate]
    simp [zeroIncomeRow]
  have hspec : specTotalIncome cexStatsDb "u" = 100 := by
    rw [specTotalIncome,
      show cexStatsDb.incomes = List.replicate 50 zeroIncomeRow ++ [posIncomeRow] from rfl,
      List.filter_append, List.filter_replicate, if_pos hfp,
      show List.filter (fun r : IncomeRow => r.telegram_id == "u") [posIncomeRow] =
        [posIncomeRow] from by decide,
      List.map_append, List.sum_append, List.map_replicate, List.sum_replicate]
    simp [zeroIncomeRow, posIncomeRow]
  refine ⟨by rw [hspec]; norm_num, ?_⟩
  simp only [handleStats]
  rw [if_pos hti]

end FinSight
